import Mathlib

/-!
Verification of the dual remote-framebuffer acquisition layer of ovh-ikvm-mcp.

The definitions below are a shallow embedding of the TypeScript sources:

* `src/vnc/rfb-client.ts` — RFB (VNC) protocol client: version negotiation,
  security negotiation, and the VNC DES challenge-response.
* `src/vnc/encodings.ts` — framebuffer encoding decoders (`decodeCopyRect`).
* `src/kvm/screenshot.ts` — IVTP protocol client: `handleMessage`,
  `handleVideoPacket` video-frame reassembly, and `decodeFrameToPng`
  compressed-word assembly.
* `src/kvm/decoder-fetcher.ts` — per-host decoder cache.

Buffers are lists of byte values (`List Nat`, each element `< 256` wherever a
`Uint8Array`/`Buffer` appears in the source), and JavaScript 32-bit integer
arithmetic is modelled on `Nat` with explicit `% 2 ^ 32` where overflow can
occur.
-/

namespace OvhIkvm

/-! ## Little-endian readers (JS `DataView.getUint16/getUint32(·, true)`) -/

/-- Read a little-endian 16-bit value from byte list `l` at offset `off`
(missing bytes read as 0). -/
def le16 (l : List Nat) (off : Nat) : Nat :=
  l.getD off 0 + l.getD (off + 1) 0 * 256

/-- Read a little-endian 32-bit value from byte list `l` at offset `off`. -/
def le32 (l : List Nat) (off : Nat) : Nat :=
  l.getD off 0 + l.getD (off + 1) 0 * 256 + l.getD (off + 2) 0 * 65536 +
    l.getD (off + 3) 0 * 16777216

/-! ## RFB version negotiation (`rfb-client.ts`, `handshake`)

The server sends a 12-byte version string matched against the regular
expression `RFB (ddd).(ddd)\n`; the client answers 3.8 when the server says
major 3 and minor at least 8, 3.7 when major 3 and minor at least 7, and 3.3
in every other case. -/

/-- Numeric value of three decimal digit characters. -/
def digits3 (a b c : Char) : Nat :=
  (a.toNat - 48) * 100 + (b.toNat - 48) * 10 + (c.toNat - 48)

/-- Parse a server version string, mirroring the regex
match in `handshake` step 1: the string must be exactly
`RFB ` followed by three digits, a dot, three digits and a newline.
Returns `some (major, minor)` on success. -/
def parseRfbVersion (s : String) : Option (Nat × Nat) :=
  match s.data with
  | ['R', 'F', 'B', ' ', a, b, c, '.', d, e, f, '\n'] =>
    if a.isDigit ∧ b.isDigit ∧ c.isDigit ∧ d.isDigit ∧ e.isDigit ∧ f.isDigit then
      some (digits3 a b c, digits3 d e f)
    else none
  | _ => none

/-- The version string the client sends back, from `handshake` step 2. -/
def clientVersionFor (serverMajor serverMinor : Nat) : String :=
  if serverMajor = 3 ∧ 8 ≤ serverMinor then "RFB 003.008\n"
  else if serverMajor = 3 ∧ 7 ≤ serverMinor then "RFB 003.007\n"
  else "RFB 003.003\n"

/-- Numeric (major, minor) pair named by one of the three reply strings. -/
def versionStringPair (s : String) : Nat × Nat :=
  if s = "RFB 003.008\n" then (3, 8)
  else if s = "RFB 003.007\n" then (3, 7)
  else (3, 3)

/-- Lexicographic order on protocol versions. -/
def versionLe (a b c d : Nat) : Prop :=
  a < c ∨ (a = c ∧ b ≤ d)

instance (a b c d : Nat) : Decidable (versionLe a b c d) := by
  unfold versionLe; infer_instance

/-! ## RFB security negotiation (`rfb-client.ts`, `negotiateSecurity38`)

Security type ids: `None = 1`, `VncAuth = 2` (`types.ts`). The client scans
the offered id array: prefer `None`, fall back to `VncAuth` (requiring a
password option that is truthy in the JavaScript sense), otherwise fail. -/

/-- Outcome of the security-type selection in `negotiateSecurity38`. -/
inductive SecuritySelection where
  /-- Client sends back id 1 and proceeds without authentication. -/
  | selectNone : SecuritySelection
  /-- Client sends back id 2 and performs the DES challenge-response. -/
  | selectVncAuth : SecuritySelection
  /-- Failure thrown with the given message. -/
  | failure (message : String) : SecuritySelection
deriving DecidableEq

/-- Truthiness of the JS `options.password` value (`undefined` and the
empty string are falsy). -/
def passwordTruthy : Option String → Bool
  | none => false
  | some s => !(s = "")

/-- The security-type decision of `negotiateSecurity38` after the offered
type array has been read. -/
def negotiateSecurity38 (types : List Nat) (password : Option String) : SecuritySelection :=
  if types.contains 1 then .selectNone
  else if types.contains 2 then
    if passwordTruthy password then .selectVncAuth
    else .failure "Server requires VNC authentication but no password provided"
  else .failure "No supported security types"

/-! ## IVTP session validation (`screenshot.ts`, `handleMessage`)

On `CMD_VALIDATED_VIDEO_SESSION` the payload's first byte (0 when the
payload is empty) decides between requesting the power status and failing
the capture. -/

/-- Action taken by `handleMessage` on a `CMD_VALIDATED_VIDEO_SESSION`
payload. -/
inductive ValidationOutcome where
  /-- The client sends a `CMD_POWER_STATUS` request packet. -/
  | sendPowerStatus : ValidationOutcome
  /-- The capture fails with the session-validation error carrying the
  result code. -/
  | failSession (code : Nat) : ValidationOutcome
deriving DecidableEq

/-- The `CMD_VALIDATED_VIDEO_SESSION` branch of `handleMessage`. -/
def handleValidatedVideoSession (payload : List Nat) : ValidationOutcome :=
  let result := if 0 < payload.length then payload.getD 0 0 else 0
  if result = 1 then .sendPowerStatus else .failSession result

/-! ## IVTP video-frame reassembly (`screenshot.ts`, `handleVideoPacket`) -/

/-- A sealed video frame, as handed to `decodeFrameToPng`. -/
structure VideoFrame where
  width : Nat
  height : Nat
  headerBytes : List Nat
  compressedChunks : List (List Nat)
  compressSize : Nat
deriving DecidableEq

/-- The mutable capture state of `captureVideoFrame` that
`handleVideoPacket` and `finish` read and write. -/
structure VideoState where
  isFirstPacket : Bool
  headerLen : Nat
  frameWidth : Nat
  frameHeight : Nat
  compressSize : Nat
  headerBytes : Option (List Nat)
  compressedChunks : List (List Nat)
  receivedCompressedBytes : Nat
  settled : Bool
  result : Option VideoFrame
deriving DecidableEq

/-- The capture state before the first video packet. -/
def VideoState.initial : VideoState :=
  ⟨true, 0, 0, 0, 0, none, [], 0, false, none⟩

/-- The `finish(null, frame)` call sealing a complete frame: a no-op when
already settled, otherwise records the frame built from the current state. -/
def sealFrame (s : VideoState) : VideoState :=
  if s.settled then s
  else
    { s with
      settled := true
      result := some
        ⟨s.frameWidth, s.frameHeight, s.headerBytes.getD [], s.compressedChunks,
          s.compressSize⟩ }

/-- The accumulation phase of `handleVideoPacket(payload)` (everything
before the completeness check). The first packet is `fragment(2) +
header(headerLen) + data` with `headerLen` read at payload offset 4, the
frame width and height at payload offsets 6 and 8, and the compressed size
at payload offset 71; subsequent packets are `fragment(2) + data`. -/
def accumVideoPacket (s : VideoState) (payload : List Nat) : VideoState :=
  if s.isFirstPacket then
    let headerLen := le16 payload 4
    let dataStart := 2 + headerLen
    let base : VideoState :=
      { s with
        isFirstPacket := false
        headerLen := headerLen
        frameWidth := le16 payload 6
        frameHeight := le16 payload 8
        compressSize := le32 payload 71
        headerBytes := some ((payload.drop 2).take headerLen) }
    if dataStart < payload.length then
      let chunk := payload.drop dataStart
      { base with
        compressedChunks := base.compressedChunks ++ [chunk]
        receivedCompressedBytes := base.receivedCompressedBytes + chunk.length }
    else base
  else
    if 2 < payload.length then
      let chunk := payload.drop 2
      { s with
        compressedChunks := s.compressedChunks ++ [chunk]
        receivedCompressedBytes := s.receivedCompressedBytes + chunk.length }
    else s

/-- One `handleVideoPacket(payload)` call. Payloads shorter than 4 bytes
return immediately; otherwise the payload is accumulated and then the
frame is sealed once the received compressed byte count reaches the
positive `compressSize` with a stored header present. -/
def handleVideoPacket (s : VideoState) (payload : List Nat) : VideoState :=
  if payload.length < 4 then s
  else
    let s1 := accumVideoPacket s payload
    if 0 < s1.compressSize ∧ s1.compressSize ≤ s1.receivedCompressedBytes ∧
        s1.headerBytes.isSome then
      sealFrame s1
    else s1

/-- Process a whole sequence of `CMD_VIDEO_PACKETS` payloads. -/
def runVideoPackets (s : VideoState) (payloads : List (List Nat)) : VideoState :=
  payloads.foldl handleVideoPacket s

/-! ## Compressed-word assembly (`screenshot.ts`, `decodeFrameToPng`)

The sealed frame's chunks are concatenated (`Buffer.concat`), the result is
zero-padded to a 4-byte boundary, and the padded buffer is viewed as an
`Int32Array` — 32-bit little-endian signed words. -/

/-- The signed 32-bit value of four little-endian bytes (an `Int32Array`
element). -/
def int32OfLE (b0 b1 b2 b3 : Nat) : Int :=
  let v := b0 + b1 * 256 + b2 * 65536 + b3 * 16777216
  if v < 2147483648 then (v : Int) else (v : Int) - 4294967296

/-- View a byte list as little-endian 32-bit words (trailing bytes that do
not fill a word are ignored, as in an `Int32Array` view). -/
def toWordsLE : List Nat → List Int
  | b0 :: b1 :: b2 :: b3 :: rest => int32OfLE b0 b1 b2 b3 :: toWordsLE rest
  | _ => []

/-- The four little-endian bytes denoted by a signed 32-bit word. -/
def wordBytesLE (w : Int) : List Nat :=
  let u := (w % 4294967296).toNat
  [u % 256, u / 256 % 256, u / 65536 % 256, u / 16777216 % 256]

/-- Decode a word sequence back into its bytes. -/
def wordsToBytesLE (ws : List Int) : List Nat :=
  (ws.map wordBytesLE).flatten

/-- Zero-pad a byte list to a 4-byte boundary, as `decodeFrameToPng` does
with `alignedLen = ceil(len / 4) * 4` and a zero-initialized buffer. -/
def alignTo4 (data : List Nat) : List Nat :=
  data ++ List.replicate ((data.length + 3) / 4 * 4 - data.length) 0

/-- The word buffer handed to the vendor decoder: chunk concatenation,
zero-padding to a 4-byte boundary, 32-bit little-endian reinterpretation. -/
def assembleCompressedWords (chunks : List (List Nat)) : List Int :=
  toWordsLE (alignTo4 chunks.flatten)

/-! ## Decoder loader cache (`decoder-fetcher.ts`)

`fetchDecoder` consults a per-host cache; on a miss it fetches the decoder
source over HTTP (failing on a non-2xx status), instantiates it and checks
the `setImageBuffer`/`decode` capabilities (failing without touching the
cache), and only then stores the new factory handle. The environment is
abstracted as a function from host to fetch outcome, and factory handles
are numbered by a monotone counter so that two handles are the same object
exactly when they carry the same number. -/

/-- What instantiating a fetched decoder source yields: whether evaluation
succeeds at all, and which of the two required methods the produced object
exposes. -/
structure DecoderSource where
  evalOk : Bool
  hasSetImageBuffer : Bool
  hasDecode : Bool
deriving DecidableEq

/-- Outcome of the HTTP GET for one host: status code plus the behaviour
of the fetched source text. -/
structure FetchOutcome where
  status : Nat
  src : DecoderSource
deriving DecidableEq

/-- `Response.ok` of the fetch API: status in the 2xx range. -/
def FetchOutcome.respOk (r : FetchOutcome) : Bool :=
  decide (200 ≤ r.status ∧ r.status ≤ 299)

/-- The two error kinds thrown by `fetchDecoder`. -/
inductive DecoderError where
  /-- Thrown on a non-2xx response, carrying the HTTP status. -/
  | fetchFailure (status : Nat) : DecoderError
  /-- Thrown when the fetched source fails to evaluate or lacks a required
  method. -/
  | initFailure : DecoderError
deriving DecidableEq

/-- The module-level `decoderCache` map plus the handle counter. -/
structure DecoderCacheState where
  cache : List (String × Nat)
  nextHandle : Nat
deriving DecidableEq

/-- Look up a host in the cache (`decoderCache.get(host)`). -/
def lookupCache (cache : List (String × Nat)) (host : String) : Option Nat :=
  (cache.find? (fun e => e.1 == host)).map (·.2)

/-- One `fetchDecoder(host, sessionCookie)` call against environment
`world`, returning the result and the updated cache state. -/
def fetchDecoder (world : String → FetchOutcome) (st : DecoderCacheState) (host : String) :
    Except DecoderError Nat × DecoderCacheState :=
  match lookupCache st.cache host with
  | some h => (.ok h, st)
  | none =>
    let r := world host
    if r.respOk then
      if r.src.evalOk && r.src.hasSetImageBuffer && r.src.hasDecode then
        (.ok st.nextHandle, ⟨(host, st.nextHandle) :: st.cache, st.nextHandle + 1⟩)
      else (.error .initFailure, st)
    else (.error (.fetchFailure r.status), st)

/-- `clearDecoderCache()`: drop every cached handle. -/
def clearDecoderCache (st : DecoderCacheState) : DecoderCacheState :=
  ⟨[], st.nextHandle⟩

/-! ## DES engine (`rfb-client.ts`, `DesEcb` and `desEncryptChallenge`)

All 32-bit JavaScript integer arithmetic is modelled on `Nat`; a left shift
that can exceed 32 bits is reduced `% 2 ^ 32`, and `>>>` is plain `Nat`
right shift (every value kept below `2 ^ 32`). -/

def SHIFTS : List Nat :=
  [1, 1, 2, 2, 2, 2, 2, 2, 1, 2, 2, 2, 2, 2, 2, 1]

def PC1C : List Nat :=
  [7, 15, 23, 31, 39, 47, 55, 63, 6, 14, 22, 30, 38, 46, 54, 62, 5, 13, 21, 29, 37, 45, 53, 61, 4, 12, 20, 28]

def PC1D : List Nat :=
  [1, 9, 17, 25, 33, 41, 49, 57, 2, 10, 18, 26, 34, 42, 50, 58, 3, 11, 19, 27, 35, 43, 51, 59, 36, 44, 52, 60]

def PC2 : List Nat :=
  [13, 16, 10, 23, 0, 4, 2, 27, 14, 5, 20, 9, 22, 18, 11, 3, 25, 7, 15, 6, 26, 19, 12, 1, 40, 51, 30, 36, 46, 54, 29, 39, 50, 44, 32, 47, 43, 48, 38, 55, 33, 52, 45, 41, 49, 35, 28, 31]

def SP1 : List Nat :=
  [0x01010400, 0x00000000, 0x00010000, 0x01010404, 0x01010004, 0x00010404, 0x00000004, 0x00010000,
   0x00000400, 0x01010400, 0x01010404, 0x00000400, 0x01000404, 0x01010004, 0x01000000, 0x00000004,
   0x00000404, 0x01000400, 0x01000400, 0x00010400, 0x00010400, 0x01010000, 0x01010000, 0x01000404,
   0x00010004, 0x01000004, 0x01000004, 0x00010004, 0x00000000, 0x00000404, 0x00010404, 0x01000000,
   0x00010000, 0x01010404, 0x00000004, 0x01010000, 0x01010400, 0x01000000, 0x01000000, 0x00000400,
   0x01010004, 0x00010000, 0x00010400, 0x01000004, 0x00000400, 0x00000004, 0x01000404, 0x00010404,
   0x01010404, 0x00010004, 0x01010000, 0x01000404, 0x01000004, 0x00000404, 0x00010404, 0x01010400,
   0x00000404, 0x01000400, 0x01000400, 0x00000000, 0x00010004, 0x00010400, 0x00000000, 0x01010004]

def SP2 : List Nat :=
  [0x80108020, 0x80008000, 0x00008000, 0x00108020, 0x00100000, 0x00000020, 0x80100020, 0x80008020,
   0x80000020, 0x80108020, 0x80108000, 0x80000000, 0x80008000, 0x00100000, 0x00000020, 0x80100020,
   0x00108000, 0x00100020, 0x80008020, 0x00000000, 0x80000000, 0x00008000, 0x00108020, 0x80100000,
   0x00100020, 0x80000020, 0x00000000, 0x00108000, 0x00008020, 0x80108000, 0x80100000, 0x00008020,
   0x00000000, 0x00108020, 0x80100020, 0x00100000, 0x80008020, 0x80100000, 0x80108000, 0x00008000,
   0x80100000, 0x80008000, 0x00000020, 0x80108020, 0x00108020, 0x00000020, 0x00008000, 0x80000000,
   0x00008020, 0x80108000, 0x00100000, 0x80000020, 0x00100020, 0x80008020, 0x80000020, 0x00100020,
   0x00108000, 0x00000000, 0x80008000, 0x00008020, 0x80000000, 0x80100020, 0x80108020, 0x00108000]

def SP3 : List Nat :=
  [0x00000208, 0x08020200, 0x00000000, 0x08020008, 0x08000200, 0x00000000, 0x00020208, 0x08000200,
   0x00020008, 0x08000008, 0x08000008, 0x00020000, 0x08020208, 0x00020008, 0x08020000, 0x00000208,
   0x08000000, 0x00000008, 0x08020200, 0x00000200, 0x00020200, 0x08020000, 0x08020008, 0x00020208,
   0x08000208, 0x00020200, 0x00020000, 0x08000208, 0x00000008, 0x08020208, 0x00000200, 0x08000000,
   0x08020200, 0x08000000, 0x00020008, 0x00000208, 0x00020000, 0x08020200, 0x08000200, 0x00000000,
   0x00000200, 0x00020008, 0x08020208, 0x08000200, 0x08000008, 0x00000200, 0x00000000, 0x08020008,
   0x08000208, 0x00020000, 0x08000000, 0x08020208, 0x00000008, 0x00020208, 0x00020200, 0x08000008,
   0x08020000, 0x08000208, 0x00000208, 0x08020000, 0x00020208, 0x00000008, 0x08020008, 0x00020200]

def SP4 : List Nat :=
  [0x00802001, 0x00002081, 0x00002081, 0x00000080, 0x00802080, 0x00800081, 0x00800001, 0x00002001,
   0x00000000, 0x00802000, 0x00802000, 0x00802081, 0x00000081, 0x00000000, 0x00800080, 0x00800001,
   0x00000001, 0x00002000, 0x00800000, 0x00802001, 0x00000080, 0x00800000, 0x00002001, 0x00002080,
   0x00800081, 0x00000001, 0x00002080, 0x00800080, 0x00002000, 0x00802080, 0x00802081, 0x00000081,
   0x00800080, 0x00800001, 0x00802000, 0x00802081, 0x00000081, 0x00000000, 0x00000000, 0x00802000,
   0x00002080, 0x00800080, 0x00800081, 0x00000001, 0x00802001, 0x00002081, 0x00002081, 0x00000080,
   0x00802081, 0x00000081, 0x00000001, 0x00002000, 0x00800001, 0x00002001, 0x00802080, 0x00800081,
   0x00002001, 0x00002080, 0x00800000, 0x00802001, 0x00000080, 0x00800000, 0x00002000, 0x00802080]

def SP5 : List Nat :=
  [0x00000100, 0x02080100, 0x02080000, 0x42000100, 0x00080000, 0x00000100, 0x40000000, 0x02080000,
   0x40080100, 0x00080000, 0x02000100, 0x40080100, 0x42000100, 0x42080000, 0x00080100, 0x40000000,
   0x02000000, 0x40080000, 0x40080000, 0x00000000, 0x40000100, 0x42080100, 0x42080100, 0x02000100,
   0x42080000, 0x40000100, 0x00000000, 0x42000000, 0x02080100, 0x02000000, 0x42000000, 0x00080100,
   0x00080000, 0x42000100, 0x00000100, 0x02000000, 0x40000000, 0x02080000, 0x42000100, 0x40080100,
   0x02000100, 0x40000000, 0x42080000, 0x02080100, 0x40080100, 0x00000100, 0x02000000, 0x42080000,
   0x42080100, 0x00080100, 0x42000000, 0x42080100, 0x02080000, 0x00000000, 0x40080000, 0x42000000,
   0x00080100, 0x02000100, 0x40000100, 0x00080000, 0x00000000, 0x40080000, 0x02080100, 0x40000100]

def SP6 : List Nat :=
  [0x20000010, 0x20400000, 0x00004000, 0x20404010, 0x20400000, 0x00000010, 0x20404010, 0x00400000,
   0x20004000, 0x00404010, 0x00400000, 0x20000010, 0x00400010, 0x20004000, 0x20000000, 0x00004010,
   0x00000000, 0x00400010, 0x20004010, 0x00004000, 0x00404000, 0x20004010, 0x00000010, 0x20400010,
   0x20400010, 0x00000000, 0x00404010, 0x20404000, 0x00004010, 0x00404000, 0x20404000, 0x20000000,
   0x20004000, 0x00000010, 0x20400010, 0x00404000, 0x20404010, 0x00400000, 0x00004010, 0x20000010,
   0x00400000, 0x20004000, 0x20000000, 0x00004010, 0x20000010, 0x20404010, 0x00404000, 0x20400000,
   0x00404010, 0x20404000, 0x00000000, 0x20400010, 0x00000010, 0x00004000, 0x20400000, 0x00404010,
   0x00004000, 0x00400010, 0x20004010, 0x00000000, 0x20404000, 0x20000000, 0x00400010, 0x20004010]

def SP7 : List Nat :=
  [0x00200000, 0x04200002, 0x04000802, 0x00000000, 0x00000800, 0x04000802, 0x00200802, 0x04200800,
   0x04200802, 0x00200000, 0x00000000, 0x04000002, 0x00000002, 0x04000000, 0x04200002, 0x00000802,
   0x04000800, 0x00200802, 0x00200002, 0x04000800, 0x04000002, 0x04200000, 0x04200800, 0x00200002,
   0x04200000, 0x00000800, 0x00000802, 0x04200802, 0x00200800, 0x00000002, 0x04000000, 0x00200800,
   0x04000000, 0x00200800, 0x00200000, 0x04000802, 0x04000802, 0x04200002, 0x04200002, 0x00000002,
   0x00200002, 0x04000000, 0x04000800, 0x00200000, 0x04200800, 0x00000802, 0x00200802, 0x04200800,
   0x00000802, 0x04000002, 0x04200802, 0x04200000, 0x00200800, 0x00000000, 0x00000002, 0x04200802,
   0x00000000, 0x00200802, 0x04200000, 0x00000800, 0x04000002, 0x04000800, 0x00000800, 0x00200002]

def SP8 : List Nat :=
  [0x10001040, 0x00001000, 0x00040000, 0x10041040, 0x10000000, 0x10001040, 0x00000040, 0x10000000,
   0x00040040, 0x10040000, 0x10041040, 0x00041000, 0x10041000, 0x00041040, 0x00001000, 0x00000040,
   0x10040000, 0x10000040, 0x10001000, 0x00001040, 0x00041000, 0x00040040, 0x10040040, 0x10041000,
   0x00001040, 0x00000000, 0x00000000, 0x10040040, 0x10000040, 0x10001000, 0x00041040, 0x00040000,
   0x00041040, 0x00040000, 0x10041000, 0x00001000, 0x00000040, 0x10040040, 0x00001000, 0x00041040,
   0x10001000, 0x00000040, 0x10000040, 0x10040000, 0x10040040, 0x10000000, 0x00040000, 0x10001040,
   0x00000000, 0x10041040, 0x00040040, 0x10000040, 0x10040000, 0x10001000, 0x10001040, 0x00000000,
   0x10041040, 0x00041000, 0x00041000, 0x00001040, 0x00001040, 0x00040040, 0x10000000, 0x10041000]

/-- 32-bit left shift with wraparound. -/
def shl32 (x n : Nat) : Nat := (x <<< n) % 4294967296

/-- Rotate a 28-bit half-key left by `s` bits (the key-schedule rotate). -/
def rot28 (c s : Nat) : Nat := ((c <<< s) ||| (c >>> (28 - s))) &&& 0x0fffffff

/-- The PC1 bit-selection loop of `generateKeys`, for one permutation
table (`PC1C` or `PC1D`). -/
def pc1Select (key : List Nat) (tbl : List Nat) : Nat :=
  (List.range 28).foldl
    (fun c i =>
      let bit := tbl.getD i 0
      if key.getD (bit >>> 3) 0 &&& (128 >>> (bit % 8)) ≠ 0 then c ||| (1 <<< (27 - i))
      else c)
    0

/-- The PC2 bit-selection loop of `generateKeys`: build one 24-bit subkey
word from the rotated halves, reading `PC2` starting at `start`. -/
def pc2Select (c d start : Nat) : Nat :=
  (List.range 24).foldl
    (fun k j =>
      let bit := PC2.getD (start + j) 0
      if bit < 28 then
        if c &&& (1 <<< (27 - bit)) ≠ 0 then k ||| (1 <<< (23 - j)) else k
      else
        if d &&& (1 <<< (27 - (bit - 28))) ≠ 0 then k ||| (1 <<< (23 - j)) else k)
    0

/-- `DesEcb.generateKeys`: derive the 32 subkey words from the 8-byte key. -/
def generateKeys (key : List Nat) : List Nat :=
  let c0 := pc1Select key PC1C
  let d0 := pc1Select key PC1D
  (((List.range 16).foldl
    (fun acc i =>
      let s := SHIFTS.getD i 0
      let c := rot28 acc.1 s
      let d := rot28 acc.2.1 s
      (c, d, acc.2.2 ++ [pc2Select c d 0, pc2Select c d 24]))
    (c0, d0, ([] : List Nat)))).2.2

/-- One Feistel round of `DesEcb.encrypt` (the loop body). -/
def desRound (keys : List Nat) (lr : Nat × Nat) (i : Nat) : Nat × Nat :=
  let l := lr.1
  let r := lr.2
  let k1 := keys.getD (i * 2) 0
  let k2 := keys.getD (i * 2 + 1) 0
  let f0 := r ^^^ k1
  let rr := shl32 r 28 ||| (r >>> 4)
  let f1 := SP1.getD ((f0 >>> 24) &&& 0x3f) 0 ||| SP3.getD ((f0 >>> 16) &&& 0x3f) 0 |||
    SP5.getD ((f0 >>> 8) &&& 0x3f) 0 ||| SP7.getD (f0 &&& 0x3f) 0
  let g := rr ^^^ k2
  let f := f1 ||| SP2.getD ((g >>> 24) &&& 0x3f) 0 ||| SP4.getD ((g >>> 16) &&& 0x3f) 0 |||
    SP6.getD ((g >>> 8) &&& 0x3f) 0 ||| SP8.getD (g &&& 0x3f) 0
  (r, l ^^^ f)

/-- `DesEcb.encrypt`: encrypt one 8-byte block with the expanded subkeys. -/
def desEncryptBlock (keys : List Nat) (input : List Nat) : List Nat :=
  let l0 := (List.range 4).foldl (fun l i => shl32 l 8 ||| input.getD i 0) 0
  let r0 := (List.range 4).foldl (fun r i => shl32 r 8 ||| input.getD (i + 4) 0) 0
  -- initial permutation
  let t := ((l0 >>> 4) ^^^ r0) &&& 0x0f0f0f0f
  let r1 := r0 ^^^ t
  let l1 := l0 ^^^ (t <<< 4)
  let t := ((l1 >>> 16) ^^^ r1) &&& 0x0000ffff
  let r2 := r1 ^^^ t
  let l2 := l1 ^^^ (t <<< 16)
  let t := ((r2 >>> 2) ^^^ l2) &&& 0x33333333
  let l3 := l2 ^^^ t
  let r3 := r2 ^^^ (t <<< 2)
  let t := ((r3 >>> 8) ^^^ l3) &&& 0x00ff00ff
  let l4 := l3 ^^^ t
  let r4 := r3 ^^^ (t <<< 8)
  let t := ((l4 >>> 1) ^^^ r4) &&& 0x55555555
  let r5 := r4 ^^^ t
  let l5 := l4 ^^^ (t <<< 1)
  -- rotate
  let l6 := shl32 l5 1 ||| (l5 >>> 31)
  let r6 := shl32 r5 1 ||| (r5 >>> 31)
  -- 16 rounds
  let lr := (List.range 16).foldl (desRound keys) (l6, r6)
  -- undo rotate
  let l7 := (lr.1 >>> 1) ||| shl32 lr.1 31
  let r7 := (lr.2 >>> 1) ||| shl32 lr.2 31
  -- final permutation
  let t := ((l7 >>> 1) ^^^ r7) &&& 0x55555555
  let r8 := r7 ^^^ t
  let l8 := l7 ^^^ (t <<< 1)
  let t := ((r8 >>> 8) ^^^ l8) &&& 0x00ff00ff
  let l9 := l8 ^^^ t
  let r9 := r8 ^^^ (t <<< 8)
  let t := ((r9 >>> 2) ^^^ l9) &&& 0x33333333
  let l10 := l9 ^^^ t
  let r10 := r9 ^^^ (t <<< 2)
  let t := ((l10 >>> 16) ^^^ r10) &&& 0x0000ffff
  let r11 := r10 ^^^ t
  let l11 := l10 ^^^ (t <<< 16)
  let t := ((l11 >>> 4) ^^^ r11) &&& 0x0f0f0f0f
  let r12 := r11 ^^^ t
  let l12 := l11 ^^^ (t <<< 4)
  [(r12 >>> 24) &&& 0xff, (r12 >>> 16) &&& 0xff, (r12 >>> 8) &&& 0xff, r12 &&& 0xff,
   (l12 >>> 24) &&& 0xff, (l12 >>> 16) &&& 0xff, (l12 >>> 8) &&& 0xff, l12 &&& 0xff]

/-- `reverseBits`: reverse the low 8 bits of a byte value. -/
def reverseBits (input : Nat) : Nat :=
  ((List.range 8).foldl (fun acc _ => (acc.1 >>> 1, (acc.2 <<< 1) ||| (acc.1 &&& 1)))
    (input, 0)).2

/-- The 8-byte VNC key: password char codes truncated to 8 entries, zero
filled beyond the password length, every used byte bit-reversed (the key
preparation loop of `desEncryptChallenge`). -/
def vncKeyOf (password : List Nat) : List Nat :=
  (List.range 8).map (fun i => if i < password.length then reverseBits (password.getD i 0) else 0)

/-- `desEncryptChallenge(challenge, password)`: derive the key, DES-encrypt
the two 8-byte challenge halves, concatenate the ciphertexts. -/
def desEncryptChallenge (challenge : List Nat) (password : List Nat) : List Nat :=
  let keys := generateKeys (vncKeyOf password)
  desEncryptBlock keys (challenge.take 8) ++ desEncryptBlock keys ((challenge.drop 8).take 8)

/-- The spec's key-derivation description: right-pad the password with zero
bytes (or truncate) to exactly 8 bytes, then reverse the bits of each byte. -/
def vncKeySpec (password : List Nat) : List Nat :=
  ((password.take 8) ++ List.replicate (8 - password.length) 0).map reverseBits

/-! ## CopyRect decoding (`encodings.ts`, `decodeCopyRect`)

The framebuffer is a fixed-length byte store mutated in place. A buffer is
modelled as its length plus a total lookup function; `Uint8Array.copyWithin`
has memmove semantics (it copies as if through an intermediate buffer) and
clamps its arguments to the buffer length. -/

/-- A fixed-length byte buffer. -/
structure ByteBuf where
  len : Nat
  val : Nat → Nat

/-- Build a buffer from a byte list (reads outside the length yield 0). -/
def ByteBuf.ofList (l : List Nat) : ByteBuf :=
  ⟨l.length, fun i => l.getD i 0⟩

/-- `Uint8Array.copyWithin(target, start, stop)`: clamp the three indices to
the buffer length, then move `min (stop - start) (len - target)` bytes from
`start` to `target` with memmove semantics. -/
def ByteBuf.copyWithin (b : ByteBuf) (target start stop : Nat) : ByteBuf :=
  let targetC := min target b.len
  let startC := min start b.len
  let stopC := min stop b.len
  let count := min (stopC - startC) (b.len - targetC)
  ⟨b.len, fun i =>
    if targetC ≤ i ∧ i < targetC + count then b.val (startC + (i - targetC)) else b.val i⟩

/-- A framebuffer-update rectangle (`FbRectangle` of `types.ts`). -/
structure FbRect where
  x : Nat
  y : Nat
  width : Nat
  height : Nat
  data : List Nat

/-- The big-endian 16-bit source x coordinate read from the CopyRect
payload (`(rect.data[0] << 8) | rect.data[1]`). -/
def FbRect.srcX (rect : FbRect) : Nat :=
  (rect.data.getD 0 0 <<< 8) ||| rect.data.getD 1 0

/-- The big-endian 16-bit source y coordinate read from the CopyRect
payload. -/
def FbRect.srcY (rect : FbRect) : Nat :=
  (rect.data.getD 2 0 <<< 8) ||| rect.data.getD 3 0

/-- `decodeCopyRect(rect, framebuffer, fbWidth)`: row by row, copy
`rect.width * 4` bytes from the source row offset to the destination row
offset inside the same buffer. -/
def decodeCopyRect (rect : FbRect) (framebuffer : ByteBuf) (fbWidth : Nat) : ByteBuf :=
  (List.range rect.height).foldl
    (fun buf y =>
      let srcOffset := ((rect.srcY + y) * fbWidth + rect.srcX) * 4
      let dstOffset := ((rect.y + y) * fbWidth + rect.x) * 4
      buf.copyWithin dstOffset srcOffset (srcOffset + rect.width * 4))
    framebuffer

/-- Write `count` bytes into `buf` at `target`, reading them at `start`
from the separate buffer `snap` (reads beyond `buf.len` are not written). -/
def writeRowFrom (buf snap : ByteBuf) (target start count : Nat) : ByteBuf :=
  ⟨buf.len, fun i =>
    if target ≤ i ∧ i < target + count ∧ i < buf.len then snap.val (start + (i - target))
    else buf.val i⟩

/-- Modelled from the spec: the overlap-safe CopyRect result — every row is
copied from an unmodified snapshot of the source region, so no write of an
earlier row can be observed by a later row's read. -/
def copyRectSnapshot (rect : FbRect) (framebuffer : ByteBuf) (fbWidth : Nat) : ByteBuf :=
  (List.range rect.height).foldl
    (fun buf y =>
      let srcOffset := ((rect.srcY + y) * fbWidth + rect.srcX) * 4
      let dstOffset := ((rect.y + y) * fbWidth + rect.x) * 4
      writeRowFrom buf framebuffer dstOffset srcOffset (rect.width * 4))
    framebuffer

/-! ## Reference DES (FIPS 46-3)

Modelled from the spec: the "textbook DES" / "reference DES algorithm" the
spec requires the engine to match byte for byte. Implemented directly from
the FIPS 46-3 permutation and substitution tables (1-based bit numbering,
most significant bit of the first byte being bit 1), independently of the
embedding of the repository's `DesEcb` above. -/

def refIP : List Nat :=
  [58, 50, 42, 34, 26, 18, 10, 2, 60, 52, 44, 36, 28, 20, 12, 4,
   62, 54, 46, 38, 30, 22, 14, 6, 64, 56, 48, 40, 32, 24, 16, 8,
   57, 49, 41, 33, 25, 17, 9, 1, 59, 51, 43, 35, 27, 19, 11, 3,
   61, 53, 45, 37, 29, 21, 13, 5, 63, 55, 47, 39, 31, 23, 15, 7]

def refFP : List Nat :=
  [40, 8, 48, 16, 56, 24, 64, 32, 39, 7, 47, 15, 55, 23, 63, 31,
   38, 6, 46, 14, 54, 22, 62, 30, 37, 5, 45, 13, 53, 21, 61, 29,
   36, 4, 44, 12, 52, 20, 60, 28, 35, 3, 43, 11, 51, 19, 59, 27,
   34, 2, 42, 10, 50, 18, 58, 26, 33, 1, 41, 9, 49, 17, 57, 25]

def refE : List Nat :=
  [32, 1, 2, 3, 4, 5, 4, 5, 6, 7, 8, 9, 8, 9, 10, 11,
   12, 13, 12, 13, 14, 15, 16, 17, 16, 17, 18, 19, 20, 21, 20, 21,
   22, 23, 24, 25, 24, 25, 26, 27, 28, 29, 28, 29, 30, 31, 32, 1]

def refP : List Nat :=
  [16, 7, 20, 21, 29, 12, 28, 17, 1, 15, 23, 26, 5, 18, 31, 10,
   2, 8, 24, 14, 32, 27, 3, 9, 19, 13, 30, 6, 22, 11, 4, 25]

def refPC1 : List Nat :=
  [57, 49, 41, 33, 25, 17, 9, 1, 58, 50, 42, 34, 26, 18, 10, 2,
   59, 51, 43, 35, 27, 19, 11, 3, 60, 52, 44, 36, 63, 55, 47, 39,
   31, 23, 15, 7, 62, 54, 46, 38, 30, 22, 14, 6, 61, 53, 45, 37,
   29, 21, 13, 5, 28, 20, 12, 4]

def refPC2 : List Nat :=
  [14, 17, 11, 24, 1, 5, 3, 28, 15, 6, 21, 10, 23, 19, 12, 4,
   26, 8, 16, 7, 27, 20, 13, 2, 41, 52, 31, 37, 47, 55, 30, 40,
   51, 45, 33, 48, 44, 49, 39, 56, 34, 53, 46, 42, 50, 36, 29, 32]

def refShifts : List Nat :=
  [1, 1, 2, 2, 2, 2, 2, 2, 1, 2, 2, 2, 2, 2, 2, 1]

def refSBoxes : List (List Nat) :=
  [[14, 4, 13, 1, 2, 15, 11, 8, 3, 10, 6, 12, 5, 9, 0, 7,
    0, 15, 7, 4, 14, 2, 13, 1, 10, 6, 12, 11, 9, 5, 3, 8,
    4, 1, 14, 8, 13, 6, 2, 11, 15, 12, 9, 7, 3, 10, 5, 0,
    15, 12, 8, 2, 4, 9, 1, 7, 5, 11, 3, 14, 10, 0, 6, 13],
   [15, 1, 8, 14, 6, 11, 3, 4, 9, 7, 2, 13, 12, 0, 5, 10,
    3, 13, 4, 7, 15, 2, 8, 14, 12, 0, 1, 10, 6, 9, 11, 5,
    0, 14, 7, 11, 10, 4, 13, 1, 5, 8, 12, 6, 9, 3, 2, 15,
    13, 8, 10, 1, 3, 15, 4, 2, 11, 6, 7, 12, 0, 5, 14, 9],
   [10, 0, 9, 14, 6, 3, 15, 5, 1, 13, 12, 7, 11, 4, 2, 8,
    13, 7, 0, 9, 3, 4, 6, 10, 2, 8, 5, 14, 12, 11, 15, 1,
    13, 6, 4, 9, 8, 15, 3, 0, 11, 1, 2, 12, 5, 10, 14, 7,
    1, 10, 13, 0, 6, 9, 8, 7, 4, 15, 14, 3, 11, 5, 2, 12],
   [7, 13, 14, 3, 0, 6, 9, 10, 1, 2, 8, 5, 11, 12, 4, 15,
    13, 8, 11, 5, 6, 15, 0, 3, 4, 7, 2, 12, 1, 10, 14, 9,
    10, 6, 9, 0, 12, 11, 7, 13, 15, 1, 3, 14, 5, 2, 8, 4,
    3, 15, 0, 6, 10, 1, 13, 8, 9, 4, 5, 11, 12, 7, 2, 14],
   [2, 12, 4, 1, 7, 10, 11, 6, 8, 5, 3, 15, 13, 0, 14, 9,
    14, 11, 2, 12, 4, 7, 13, 1, 5, 0, 15, 10, 3, 9, 8, 6,
    4, 2, 1, 11, 10, 13, 7, 8, 15, 9, 12, 5, 6, 3, 0, 14,
    11, 8, 12, 7, 1, 14, 2, 13, 6, 15, 0, 9, 10, 4, 5, 3],
   [12, 1, 10, 15, 9, 2, 6, 8, 0, 13, 3, 4, 14, 7, 5, 11,
    10, 15, 4, 2, 7, 12, 9, 5, 6, 1, 13, 14, 0, 11, 3, 8,
    9, 14, 15, 5, 2, 8, 12, 3, 7, 0, 4, 10, 1, 13, 11, 6,
    4, 3, 2, 12, 9, 5, 15, 10, 11, 14, 1, 7, 6, 0, 8, 13],
   [4, 11, 2, 14, 15, 0, 8, 13, 3, 12, 9, 7, 5, 10, 6, 1,
    13, 0, 11, 7, 4, 9, 1, 10, 14, 3, 5, 12, 2, 15, 8, 6,
    1, 4, 11, 13, 12, 3, 7, 14, 10, 15, 6, 8, 0, 5, 9, 2,
    6, 11, 13, 8, 1, 4, 10, 7, 9, 5, 0, 15, 14, 2, 3, 12],
   [13, 2, 8, 4, 6, 15, 11, 1, 10, 9, 3, 14, 5, 0, 12, 7,
    1, 15, 13, 8, 10, 3, 7, 4, 12, 5, 6, 11, 0, 14, 9, 2,
    7, 11, 4, 1, 9, 12, 14, 2, 0, 6, 10, 13, 15, 3, 5, 8,
    2, 1, 14, 7, 4, 10, 8, 13, 15, 12, 9, 0, 3, 5, 6, 11]]

/-- The eight bits of a byte, most significant first. -/
def byteBits (b : Nat) : List Nat :=
  [(b >>> 7) &&& 1, (b >>> 6) &&& 1, (b >>> 5) &&& 1, (b >>> 4) &&& 1,
   (b >>> 3) &&& 1, (b >>> 2) &&& 1, (b >>> 1) &&& 1, b &&& 1]

/-- A byte list as a bit list, most significant bit first. -/
def bitsOfBytes (l : List Nat) : List Nat :=
  (l.map byteBits).flatten

/-- Pack a bit list back into bytes (eight bits per byte, MSB first). -/
def bytesOfBits : List Nat → List Nat
  | b0 :: b1 :: b2 :: b3 :: b4 :: b5 :: b6 :: b7 :: rest =>
    (b0 <<< 7 ||| b1 <<< 6 ||| b2 <<< 5 ||| b3 <<< 4 |||
      b4 <<< 3 ||| b5 <<< 2 ||| b6 <<< 1 ||| b7) :: bytesOfBits rest
  | _ => []

/-- Apply a 1-based FIPS permutation table to a bit list. -/
def permuteBits (bits tbl : List Nat) : List Nat :=
  tbl.map (fun t => bits.getD (t - 1) 0)

/-- The sixteen 48-bit round keys of reference DES. -/
def refSubkeys (key : List Nat) : List (List Nat) :=
  let cd := permuteBits (bitsOfBytes key) refPC1
  ((refShifts.foldl
    (fun acc s =>
      let c := acc.1.drop s ++ acc.1.take s
      let d := acc.2.1.drop s ++ acc.2.1.take s
      (c, d, acc.2.2 ++ [permuteBits (c ++ d) refPC2]))
    (cd.take 28, cd.drop 28, ([] : List (List Nat))))).2.2

/-- The DES round function f(R, K) on bit lists. -/
def refFeistel (R K : List Nat) : List Nat :=
  let x := List.zipWith (· ^^^ ·) (permuteBits R refE) K
  let sOut := (List.range 8).map (fun i =>
    let g := (x.drop (6 * i)).take 6
    let row := g.getD 0 0 * 2 + g.getD 5 0
    let col := g.getD 1 0 * 8 + g.getD 2 0 * 4 + g.getD 3 0 * 2 + g.getD 4 0
    let v := (refSBoxes.getD i []).getD (row * 16 + col) 0
    [(v >>> 3) &&& 1, (v >>> 2) &&& 1, (v >>> 1) &&& 1, v &&& 1])
  permuteBits sOut.flatten refP

/-- Reference DES encryption of one 8-byte block with an 8-byte key. -/
def desReferenceEncrypt (key block : List Nat) : List Nat :=
  let ks := refSubkeys key
  let b := permuteBits (bitsOfBytes block) refIP
  let lr := ks.foldl
    (fun lr k => (lr.2, List.zipWith (· ^^^ ·) lr.1 (refFeistel lr.2 k)))
    (b.take 32, b.drop 32)
  bytesOfBits (permuteBits (lr.2 ++ lr.1) refFP)

/-- Modelled from the spec: the correct VNC challenge response — each
8-byte half of the 16-byte challenge encrypted with reference DES under
the bit-reversed, zero-padded password key. -/
def vncChallengeResponseSpec (challenge password : List Nat) : List Nat :=
  desReferenceEncrypt (vncKeySpec password) (challenge.take 8) ++
    desReferenceEncrypt (vncKeySpec password) ((challenge.drop 8).take 8)

/-- The loop body of `decodeCopyRect` for row `y`. -/
def copyRectStep (rect : FbRect) (fbWidth : Nat) (buf : ByteBuf) (y : Nat) : ByteBuf :=
  buf.copyWithin (((rect.y + y) * fbWidth + rect.x) * 4)
    (((rect.srcY + y) * fbWidth + rect.srcX) * 4)
    (((rect.srcY + y) * fbWidth + rect.srcX) * 4 + rect.width * 4)

/-- The loop body of `copyRectSnapshot` for row `y`. -/
def snapshotStep (rect : FbRect) (framebuffer : ByteBuf) (fbWidth : Nat)
    (buf : ByteBuf) (y : Nat) : ByteBuf :=
  writeRowFrom buf framebuffer (((rect.y + y) * fbWidth + rect.x) * 4)
    (((rect.srcY + y) * fbWidth + rect.srcX) * 4) (rect.width * 4)

end OvhIkvm

-- THEOREMS

namespace OvhIkvm

/-- C9: a `VALIDATED_VIDEO_SESSION` payload whose first byte is anything
other than 1 — the empty payload counting as result 0 — makes the client
fail the capture with the session-validation error, and only a first byte
equal to 1 makes it send the `POWER_STATUS` request. -/
theorem c9_session_validation (payload : List Nat) :
    (handleValidatedVideoSession payload = .sendPowerStatus ↔
      payload ≠ [] ∧ payload.getD 0 0 = 1) ∧
    (payload = [] → handleValidatedVideoSession payload = .failSession 0) ∧
    (payload ≠ [] → payload.getD 0 0 ≠ 1 →
      handleValidatedVideoSession payload = .failSession (payload.getD 0 0)) := by
  unfold handleValidatedVideoSession
  match payload with
  | [] => simp
  | a :: l =>
    refine ⟨?_, by simp, ?_⟩
    · by_cases h : a = 1 <;> simp [h]
    · intro _ h
      simp only [List.getD_cons_zero] at h ⊢
      simp [h]

/-- C9 witness: the empty payload and a payload starting with byte 2 fail;
the theorem is applied at the concrete inputs. -/
theorem c9_session_validation_witness :
    handleValidatedVideoSession [2, 9] = .failSession 2 :=
  (c9_session_validation [2, 9]).2.2 (by decide) (by decide)

/-- C10: a subsequent (non-first) `VIDEO_PACKETS` payload shorter than 4
bytes leaves the whole reassembly state — chunk list, received byte count,
stored header, and everything else — unchanged, so a 3-byte trailing
fragment is dropped rather than appended. -/
theorem c10_short_packet_dropped (s : VideoState) (payload : List Nat)
    (hfirst : s.isFirstPacket = false) (hlen : payload.length < 4) :
    handleVideoPacket s payload = s := by
  unfold handleVideoPacket
  rw [if_pos hlen]

/-- C10 witness: a 3-byte fragment (2-byte index plus one data byte)
arriving after the first packet changes nothing. -/
theorem c10_short_packet_dropped_witness :
    handleVideoPacket ⟨false, 0, 0, 0, 0, none, [[7]], 1, false, none⟩ [0, 1, 5] =
      ⟨false, 0, 0, 0, 0, none, [[7]], 1, false, none⟩ :=
  c10_short_packet_dropped _ [0, 1, 5] rfl (by decide)

/-- C4: security selection for RFB 3.7+: an offer containing `None` (1) is
answered by selecting `None`; otherwise an offer containing `VncAuth` (2)
with a password supplied selects `VncAuth` and runs the challenge-response;
with `VncAuth` offered as the only supported type and no password, the
connection fails with the no-password authentication error. -/
theorem c4_security_selection (types : List Nat) (password : Option String) :
    (types.contains 1 = true → negotiateSecurity38 types password = .selectNone) ∧
    (types.contains 1 = false → types.contains 2 = true → passwordTruthy password = true →
      negotiateSecurity38 types password = .selectVncAuth) ∧
    (types.contains 1 = false → types.contains 2 = true → passwordTruthy password = false →
      negotiateSecurity38 types password =
        .failure "Server requires VNC authentication but no password provided") := by
  refine ⟨fun h1 => ?_, fun h1 h2 hp => ?_, fun h1 h2 hp => ?_⟩
  · unfold negotiateSecurity38; rw [if_pos h1]
  · unfold negotiateSecurity38; rw [if_neg (by simpa using h1), if_pos h2, if_pos hp]
  · unfold negotiateSecurity38
    rw [if_neg (by simpa using h1), if_pos h2, if_neg (by simpa using hp)]

/-- C4 witness: a server offering only VncAuth (id 2, next to an unsupported
id 5) with no password configured produces the no-password failure. -/
theorem c4_security_selection_witness :
    negotiateSecurity38 [5, 2] none =
      .failure "Server requires VNC authentication but no password provided" :=
  (c4_security_selection [5, 2] none).2.2 (by decide) (by decide) (by decide)

/-- C3 counterexample: the claim fails twice on concrete accepted version
strings. A server advertising `RFB 004.000` (which is at least 3.8 in
version order) is answered with 3.3, not 3.8, because the code requires
major = 3 exactly; and a server advertising `RFB 003.000` is answered with
3.3, which is higher than the version the server offered. -/
theorem c3_counterexample :
    parseRfbVersion "RFB 004.000\n" = some (4, 0) ∧
    versionLe 3 8 4 0 ∧
    clientVersionFor 4 0 = "RFB 003.003\n" ∧
    clientVersionFor 4 0 ≠ "RFB 003.008\n" ∧
    parseRfbVersion "RFB 003.000\n" = some (3, 0) ∧
    clientVersionFor 3 0 = "RFB 003.003\n" ∧
    ¬ versionLe (versionStringPair (clientVersionFor 3 0)).1
        (versionStringPair (clientVersionFor 3 0)).2 3 0 := by
  decide

/-- C3 amended: for accepted server version strings the client replies 3.8
when the server advertises major 3 with minor at least 8, 3.7 when major 3
with minor exactly 7, and 3.3 in every other case; whenever the server
advertises major 3 with minor at least 3, the reply never exceeds the
server's version. -/
theorem c3_version_selection (s : String) (M m : Nat)
    (hparse : parseRfbVersion s = some (M, m)) :
    (M = 3 → 8 ≤ m → clientVersionFor M m = "RFB 003.008\n") ∧
    (M = 3 → m = 7 → clientVersionFor M m = "RFB 003.007\n") ∧
    (M ≠ 3 ∨ m < 7 → clientVersionFor M m = "RFB 003.003\n") ∧
    (M = 3 → 3 ≤ m →
      versionLe (versionStringPair (clientVersionFor M m)).1
        (versionStringPair (clientVersionFor M m)).2 M m) := by
  clear hparse
  have p38 : versionStringPair "RFB 003.008\n" = (3, 8) := by decide
  have p37 : versionStringPair "RFB 003.007\n" = (3, 7) := by decide
  have p33 : versionStringPair "RFB 003.003\n" = (3, 3) := by decide
  refine ⟨fun h3 h8 => ?_, fun h3 h7 => ?_, fun h => ?_, fun h3 hm => ?_⟩
  · unfold clientVersionFor; rw [if_pos ⟨h3, h8⟩]
  · subst h7; unfold clientVersionFor
    rw [if_neg (by omega), if_pos ⟨h3, by omega⟩]
  · have h1 : ¬(M = 3 ∧ 8 ≤ m) := by
      rcases h with h | h
      · exact fun hc => h hc.1
      · omega
    have h2 : ¬(M = 3 ∧ 7 ≤ m) := by
      rcases h with h | h
      · exact fun hc => h hc.1
      · omega
    unfold clientVersionFor; rw [if_neg h1, if_neg h2]
  · subst h3
    rcases Nat.lt_or_ge m 7 with h7 | h7
    · have e : clientVersionFor 3 m = "RFB 003.003\n" := by
        unfold clientVersionFor; rw [if_neg (by omega), if_neg (by omega)]
      rw [e, p33]; exact Or.inr ⟨rfl, hm⟩
    · rcases Nat.lt_or_ge m 8 with h8 | h8
      · have e : clientVersionFor 3 m = "RFB 003.007\n" := by
          unfold clientVersionFor; rw [if_neg (by omega), if_pos ⟨rfl, h7⟩]
        rw [e, p37]; exact Or.inr ⟨rfl, h7⟩
      · have e : clientVersionFor 3 m = "RFB 003.008\n" := by
          unfold clientVersionFor; rw [if_pos ⟨rfl, h8⟩]
        rw [e, p38]; exact Or.inr ⟨rfl, h8⟩

/-- C3 witness: the amended theorem applied to the concrete accepted
string `RFB 003.005` — major 3, minor 5: the reply is 3.3 and does not
exceed the server's version. -/
theorem c3_version_selection_witness :
    clientVersionFor 3 5 = "RFB 003.003\n" ∧
    versionLe (versionStringPair (clientVersionFor 3 5)).1
      (versionStringPair (clientVersionFor 3 5)).2 3 5 :=
  ⟨(c3_version_selection "RFB 003.005\n" 3 5 (by decide)).2.2.1 (Or.inr (by omega)),
   (c3_version_selection "RFB 003.005\n" 3 5 (by decide)).2.2.2 rfl (by omega)⟩

/-- C2: the challenge response is built as claimed — key bytes derived by
zero-padding or truncating the password to 8 bytes and bit-reversing each
byte, the two 8-byte challenge halves each encrypted with that key and
concatenated — but the DES engine itself does not match reference DES:
on the classic FIPS worked example (key 133457799BBCDFF1, plaintext
0123456789ABCDEF) reference DES yields 85E813540F0AB405 while the
repository's `DesEcb.encrypt` yields 47865B6D0562D727, and consequently
the full challenge response for password "password" differs from the
correct VNC response. -/
theorem c2_des_engine_mismatch :
    (∀ ch pw : List Nat, desEncryptChallenge ch pw =
      desEncryptBlock (generateKeys (vncKeyOf pw)) (ch.take 8) ++
        desEncryptBlock (generateKeys (vncKeyOf pw)) ((ch.drop 8).take 8)) ∧
    (∀ pw : List Nat, vncKeyOf pw = vncKeySpec pw) ∧
    desReferenceEncrypt [0x13, 0x34, 0x57, 0x79, 0x9B, 0xBC, 0xDF, 0xF1]
        [0x01, 0x23, 0x45, 0x67, 0x89, 0xAB, 0xCD, 0xEF] =
      [0x85, 0xE8, 0x13, 0x54, 0x0F, 0x0A, 0xB4, 0x05] ∧
    desEncryptBlock (generateKeys [0x13, 0x34, 0x57, 0x79, 0x9B, 0xBC, 0xDF, 0xF1])
        [0x01, 0x23, 0x45, 0x67, 0x89, 0xAB, 0xCD, 0xEF] =
      [0x47, 0x86, 0x5B, 0x6D, 0x05, 0x62, 0xD7, 0x27] ∧
    desEncryptChallenge (List.range 16) [0x70, 0x61, 0x73, 0x73, 0x77, 0x6F, 0x72, 0x64] ≠
      vncChallengeResponseSpec (List.range 16) [0x70, 0x61, 0x73, 0x73, 0x77, 0x6F, 0x72, 0x64] := by
  refine ⟨fun ch pw => rfl, fun pw => ?_, by decide, by decide, by decide⟩
  apply List.ext_getElem
  · simp [vncKeyOf, vncKeySpec]
    omega
  · intro i hi1 hi2
    have h8 : i < 8 := by simpa [vncKeyOf] using hi1
    simp only [vncKeyOf, vncKeySpec, List.getElem_map, List.getElem_range]
    by_cases hp : i < pw.length
    · have hlt : i < (pw.take 8).length := by
        simp only [List.length_take]
        omega
      rw [List.getElem_append_left hlt, if_pos hp, List.getElem_take]
      congr 1
      exact List.getD_eq_getElem pw 0 hp
    · have hge : (pw.take 8).length ≤ i := by
        simp only [List.length_take]
        omega
      rw [List.getElem_append_right hge, if_neg hp, List.getElem_replicate]
      decide

/-- Four in-range bytes survive the signed little-endian word round trip. -/
theorem wordBytesLE_int32OfLE (b0 b1 b2 b3 : Nat) (h0 : b0 < 256) (h1 : b1 < 256)
    (h2 : b2 < 256) (h3 : b3 < 256) :
    wordBytesLE (int32OfLE b0 b1 b2 b3) = [b0, b1, b2, b3] := by
  simp only [wordBytesLE, int32OfLE]
  split
  all_goals simp only [List.cons.injEq, and_true]
  all_goals omega

/-- Byte lists of length divisible by 4 survive the word view round trip. -/
theorem toWordsLE_roundtrip :
    ∀ bytes : List Nat, (∀ b ∈ bytes, b < 256) → bytes.length % 4 = 0 →
      wordsToBytesLE (toWordsLE bytes) = bytes := by
  intro bytes
  induction bytes using toWordsLE.induct with
  | case1 b0 b1 b2 b3 rest ih =>
    intro hb hlen
    have hr : wordsToBytesLE (toWordsLE (b0 :: b1 :: b2 :: b3 :: rest)) =
        wordBytesLE (int32OfLE b0 b1 b2 b3) ++ wordsToBytesLE (toWordsLE rest) := by
      simp [toWordsLE, wordsToBytesLE]
    rw [hr, wordBytesLE_int32OfLE b0 b1 b2 b3 (hb b0 (by simp)) (hb b1 (by simp))
      (hb b2 (by simp)) (hb b3 (by simp))]
    rw [ih (fun b hbm => hb b (by simp [hbm]))
      (by simp only [List.length_cons] at hlen; omega)]
    rfl
  | case2 t h =>
    intro hb hlen
    rcases t with _ | ⟨a, _ | ⟨b, _ | ⟨c, _ | ⟨d, rest⟩⟩⟩⟩
    · rfl
    · simp at hlen
    · simp at hlen
    · simp at hlen
    · exact absurd rfl (h a b c d rest)

/-- The padded buffer length is a multiple of four. -/
theorem alignTo4_length_mod (l : List Nat) : (alignTo4 l).length % 4 = 0 := by
  simp only [alignTo4, List.length_append, List.length_replicate]
  omega

/-- C7: the word buffer handed to the vendor decoder is the chunk bytes in
order, zero-padded to a 4-byte boundary and read as little-endian 32-bit
words — decoding the words back gives exactly the padded concatenation —
and the word sequence depends only on the concatenated chunk contents. -/
theorem c7_word_assembly (chunks : List (List Nat))
    (hbytes : ∀ b ∈ chunks.flatten, b < 256) :
    wordsToBytesLE (assembleCompressedWords chunks) =
      chunks.flatten ++
        List.replicate ((chunks.flatten.length + 3) / 4 * 4 - chunks.flatten.length) 0 ∧
    ∀ other : List (List Nat), other.flatten = chunks.flatten →
      assembleCompressedWords other = assembleCompressedWords chunks := by
  constructor
  · have hb : ∀ b ∈ alignTo4 chunks.flatten, b < 256 := by
      intro b hbmem
      rcases List.mem_append.mp hbmem with h | h
      · exact hbytes b h
      · rw [List.eq_of_mem_replicate h]
        omega
    exact toWordsLE_roundtrip _ hb (alignTo4_length_mod _)
  · intro other ho
    unfold assembleCompressedWords
    rw [ho]

/-- C7 witness: five bytes in two chunks are padded with three zero bytes
and survive the word round trip. -/
theorem c7_word_assembly_witness :
    wordsToBytesLE (assembleCompressedWords [[1, 2, 3], [4, 5]]) =
      ([[1, 2, 3], [4, 5]] : List (List Nat)).flatten ++
        List.replicate
          ((([[1, 2, 3], [4, 5]] : List (List Nat)).flatten.length + 3) / 4 * 4 -
            ([[1, 2, 3], [4, 5]] : List (List Nat)).flatten.length) 0 :=
  (c7_word_assembly [[1, 2, 3], [4, 5]] (by decide)).1

/-- Cache lookup on a cons cell compares the stored host first. -/
theorem lookupCache_cons (a : String) (n : Nat) (c : List (String × Nat)) (host : String) :
    lookupCache ((a, n) :: c) host =
      if (a == host) = true then some n else lookupCache c host := by
  by_cases h : (a == host) = true
  · rw [if_pos h]
    unfold lookupCache
    rw [List.find?_cons_of_pos _ (by simpa using h)]
    rfl
  · rw [if_neg h]
    unfold lookupCache
    rw [List.find?_cons_of_neg _ (by simpa using h)]

/-- C8: a second `fetchDecoder` call for the same host returns the handle
cached by the first call, with the same cache state and independently of
the network environment; fresh fetches for two distinct hosts yield
distinct handles; after `clearDecoderCache` the call goes through the
fetch path again as with an empty cache; a non-2xx response fails with the
fetch error carrying the HTTP status and leaves the cache untouched, and a
source that fails to evaluate or lacks `setImageBuffer`/`decode` fails
with the init error and leaves the cache untouched. -/
theorem c8_decoder_cache (world world2 : String → FetchOutcome) (st : DecoderCacheState)
    (host host2 : String) :
    (∀ h st1, fetchDecoder world st host = (.ok h, st1) →
      fetchDecoder world2 st1 host = (.ok h, st1)) ∧
    (lookupCache st.cache host = none → lookupCache st.cache host2 = none → host ≠ host2 →
      ∀ h1 st1 h2 st2, fetchDecoder world st host = (.ok h1, st1) →
        fetchDecoder world2 st1 host2 = (.ok h2, st2) → h1 ≠ h2) ∧
    (fetchDecoder world (clearDecoderCache st) host =
      if (world host).respOk = true then
        if ((world host).src.evalOk && (world host).src.hasSetImageBuffer &&
            (world host).src.hasDecode) = true then
          (.ok st.nextHandle, ⟨[(host, st.nextHandle)], st.nextHandle + 1⟩)
        else (.error .initFailure, clearDecoderCache st)
      else (.error (.fetchFailure (world host).status), clearDecoderCache st)) ∧
    (lookupCache st.cache host = none →
      ¬(200 ≤ (world host).status ∧ (world host).status ≤ 299) →
      fetchDecoder world st host = (.error (.fetchFailure (world host).status), st)) ∧
    (lookupCache st.cache host = none → (world host).respOk = true →
      ((world host).src.evalOk && (world host).src.hasSetImageBuffer &&
        (world host).src.hasDecode) = false →
      fetchDecoder world st host = (.error .initFailure, st)) := by
  refine ⟨?_, ?_, ?_, ?_, ?_⟩
  · intro h st1 hcall
    unfold fetchDecoder at hcall
    split at hcall
    · rename_i h0 heq
      simp only [Prod.mk.injEq, Except.ok.injEq] at hcall
      obtain ⟨rfl, rfl⟩ := hcall
      unfold fetchDecoder
      simp only [heq]
    · rename_i heq
      dsimp only at hcall
      split at hcall
      · split at hcall
        · simp only [Prod.mk.injEq, Except.ok.injEq] at hcall
          obtain ⟨rfl, rfl⟩ := hcall
          unfold fetchDecoder
          have hsome : lookupCache ((host, st.nextHandle) :: st.cache) host =
              some st.nextHandle := by
            rw [lookupCache_cons, if_pos (by simp)]
          simp only [hsome]
        · simp at hcall
      · simp at hcall
  · intro hl1 hl2 hne h1 st1 h2 st2 hc1 hc2
    unfold fetchDecoder at hc1 hc2
    split at hc1
    · rename_i h0 heq
      rw [hl1] at heq
      simp at heq
    · dsimp only at hc1
      split at hc1
      · split at hc1
        · simp only [Prod.mk.injEq, Except.ok.injEq] at hc1
          obtain ⟨rfl, rfl⟩ := hc1
          have hlook : lookupCache ((host, st.nextHandle) :: st.cache) host2 = none := by
            rw [lookupCache_cons, if_neg (by simpa using hne)]
            exact hl2
          simp only [hlook] at hc2
          split at hc2
          · split at hc2
            · simp only [Prod.mk.injEq, Except.ok.injEq] at hc2
              omega
            · simp at hc2
          · simp at hc2
        · simp at hc1
      · simp at hc1
  · unfold fetchDecoder
    have hlook : lookupCache (clearDecoderCache st).cache host = none := by
      simp [lookupCache, clearDecoderCache, List.find?]
    simp only [hlook]
    rfl
  · intro hl hstatus
    unfold fetchDecoder
    have hfail : (world host).respOk = false := by
      simp only [FetchOutcome.respOk, decide_eq_false_iff_not]
      exact hstatus
    simp only [hl, hfail]
    simp
  · intro hl hok hcap
    unfold fetchDecoder
    simp only [hl, hok, hcap]
    simp

/-- C8 witness: against an environment that always serves a valid decoder
with HTTP 200, the first call on an empty cache stores handle 0 and a
repeat call returns that cached handle unchanged. -/
theorem c8_decoder_cache_witness :
    fetchDecoder (fun _ => ⟨200, ⟨true, true, true⟩⟩) ⟨[("bmc-a", 0)], 1⟩ "bmc-a" =
      (.ok 0, ⟨[("bmc-a", 0)], 1⟩) :=
  (c8_decoder_cache (fun _ => ⟨200, ⟨true, true, true⟩⟩) (fun _ => ⟨200, ⟨true, true, true⟩⟩)
    ⟨[], 0⟩ "bmc-a" "bmc-b").1 0 ⟨[("bmc-a", 0)], 1⟩ rfl

/-- Reading a dropped list reads the original at a shifted offset. -/
theorem getD_drop (l : List Nat) (m k : Nat) : (l.drop m).getD k 0 = l.getD (m + k) 0 := by
  simp [List.getD_eq_getElem?_getD, List.getElem?_drop]

/-- Reading inside the taken prefix reads the original. -/
theorem getD_take (l : List Nat) (n k : Nat) (h : k < n) :
    (l.take n).getD k 0 = l.getD k 0 := by
  simp [List.getD_eq_getElem?_getD, List.getElem?_take, h]

/-- A 16-bit read inside the header slice equals the read at the payload
offset shifted by the 2-byte fragment index. -/
theorem le16_header_view (payload : List Nat) (hl k : Nat) (h : k + 1 < hl) :
    le16 ((payload.drop 2).take hl) k = le16 payload (2 + k) := by
  unfold le16
  rw [getD_take _ _ _ (by omega), getD_take _ _ _ h, getD_drop, getD_drop]
  simp [Nat.add_assoc]

/-- A 32-bit read inside the header slice equals the read at the payload
offset shifted by the 2-byte fragment index. -/
theorem le32_header_view (payload : List Nat) (hl k : Nat) (h : k + 3 < hl) :
    le32 ((payload.drop 2).take hl) k = le32 payload (2 + k) := by
  unfold le32
  rw [getD_take _ _ _ (by omega), getD_take _ _ _ (by omega), getD_take _ _ _ (by omega),
    getD_take _ _ _ h, getD_drop, getD_drop, getD_drop, getD_drop]
  simp [Nat.add_assoc]

/-- Sealing a frame leaves the first-packet flag unchanged. -/
@[simp] theorem sealFrame_isFirstPacket (s : VideoState) :
    (sealFrame s).isFirstPacket = s.isFirstPacket := by
  unfold sealFrame; split <;> rfl

/-- Sealing a frame leaves the header length unchanged. -/
@[simp] theorem sealFrame_headerLen (s : VideoState) :
    (sealFrame s).headerLen = s.headerLen := by
  unfold sealFrame; split <;> rfl

/-- Sealing a frame leaves the frame width unchanged. -/
@[simp] theorem sealFrame_frameWidth (s : VideoState) :
    (sealFrame s).frameWidth = s.frameWidth := by
  unfold sealFrame; split <;> rfl

/-- Sealing a frame leaves the frame height unchanged. -/
@[simp] theorem sealFrame_frameHeight (s : VideoState) :
    (sealFrame s).frameHeight = s.frameHeight := by
  unfold sealFrame; split <;> rfl

/-- Sealing a frame leaves the compressed size unchanged. -/
@[simp] theorem sealFrame_compressSize (s : VideoState) :
    (sealFrame s).compressSize = s.compressSize := by
  unfold sealFrame; split <;> rfl

/-- Sealing a frame leaves the stored header unchanged. -/
@[simp] theorem sealFrame_headerBytes (s : VideoState) :
    (sealFrame s).headerBytes = s.headerBytes := by
  unfold sealFrame; split <;> rfl

/-- Sealing a frame leaves the chunk list unchanged. -/
@[simp] theorem sealFrame_compressedChunks (s : VideoState) :
    (sealFrame s).compressedChunks = s.compressedChunks := by
  unfold sealFrame; split <;> rfl

/-- Sealing a frame leaves the received byte count unchanged. -/
@[simp] theorem sealFrame_receivedCompressedBytes (s : VideoState) :
    (sealFrame s).receivedCompressedBytes = s.receivedCompressedBytes := by
  unfold sealFrame; split <;> rfl

/-- C5: the first video payload is fragment-index(2) + header + data — the
header length is read from the header's own length field at header offset
2, the width and height at header offsets 4 and 6, the 4-byte compressed
size at header offset 69, the stored header is the `headerLen`-byte slice
after the fragment index, and any bytes after the header are accumulated
as the first compressed chunk; every subsequent payload is
fragment-index(2) + compressed data only. -/
theorem c5_video_packet_layout :
    (∀ (s : VideoState) (payload : List Nat),
      s.isFirstPacket = true → 75 ≤ le16 payload 4 → 2 + le16 payload 4 ≤ payload.length →
      (handleVideoPacket s payload).isFirstPacket = false ∧
      (handleVideoPacket s payload).headerBytes =
        some ((payload.drop 2).take (le16 payload 4)) ∧
      (handleVideoPacket s payload).headerLen =
        le16 ((payload.drop 2).take (le16 payload 4)) 2 ∧
      (handleVideoPacket s payload).frameWidth =
        le16 ((payload.drop 2).take (le16 payload 4)) 4 ∧
      (handleVideoPacket s payload).frameHeight =
        le16 ((payload.drop 2).take (le16 payload 4)) 6 ∧
      (handleVideoPacket s payload).compressSize =
        le32 ((payload.drop 2).take (le16 payload 4)) 69 ∧
      (2 + le16 payload 4 < payload.length →
        (handleVideoPacket s payload).compressedChunks =
          s.compressedChunks ++ [payload.drop (2 + le16 payload 4)]) ∧
      (payload.length ≤ 2 + le16 payload 4 →
        (handleVideoPacket s payload).compressedChunks = s.compressedChunks)) ∧
    (∀ (s : VideoState) (payload : List Nat),
      s.isFirstPacket = false → 4 ≤ payload.length →
      (handleVideoPacket s payload).compressedChunks =
        s.compressedChunks ++ [payload.drop 2] ∧
      (handleVideoPacket s payload).receivedCompressedBytes =
        s.receivedCompressedBytes + (payload.length - 2)) := by
  constructor
  · intro s payload hfirst h75 hlen
    have h4 : ¬ payload.length < 4 := by omega
    have e2 : le16 ((payload.drop 2).take (le16 payload 4)) 2 = le16 payload 4 :=
      le16_header_view payload _ 2 (by omega)
    have e4 : le16 ((payload.drop 2).take (le16 payload 4)) 4 = le16 payload 6 :=
      le16_header_view payload _ 4 (by omega)
    have e6 : le16 ((payload.drop 2).take (le16 payload 4)) 6 = le16 payload 8 :=
      le16_header_view payload _ 6 (by omega)
    have e69 : le32 ((payload.drop 2).take (le16 payload 4)) 69 = le32 payload 71 :=
      le32_header_view payload _ 69 (by omega)
    unfold handleVideoPacket accumVideoPacket
    rw [if_neg h4, hfirst]
    rw [if_pos rfl]
    dsimp only
    by_cases hd : 2 + le16 payload 4 < payload.length
    · rw [if_pos hd]
      split <;>
        refine ⟨?_, ?_, ?_, ?_, ?_, ?_, fun _ => ?_, fun hc => by omega⟩ <;>
          simp [e2, e4, e6, e69]
    · rw [if_neg hd]
      split <;>
        refine ⟨?_, ?_, ?_, ?_, ?_, ?_, fun hc => by omega, fun _ => ?_⟩ <;>
          simp [e2, e4, e6, e69]
  · intro s payload hfirst h4'
    have h4 : ¬ payload.length < 4 := by omega
    have h2 : 2 < payload.length := by omega
    unfold handleVideoPacket accumVideoPacket
    rw [if_neg h4]
    simp only [hfirst, Bool.false_eq_true, if_false, if_pos h2]
    split <;> constructor <;> simp

/-- C5 witness: a concrete first payload with a 75-byte header and two
trailing data bytes is parsed at the stated offsets. -/
theorem c5_video_packet_layout_witness :
    (handleVideoPacket VideoState.initial
        (List.replicate 2 0 ++ ([0, 0, 75, 0] ++ List.replicate 71 0) ++ [9, 9])).headerBytes =
      some ((((List.replicate 2 0 ++ ([0, 0, 75, 0] ++ List.replicate 71 0) ++ [9, 9]) :
          List Nat).drop 2).take
        (le16 (List.replicate 2 0 ++ ([0, 0, 75, 0] ++ List.replicate 71 0) ++ [9, 9]) 4)) :=
  ((c5_video_packet_layout).1 VideoState.initial
    (List.replicate 2 0 ++ ([0, 0, 75, 0] ++ List.replicate 71 0) ++ [9, 9])
    rfl (by decide) (by decide)).2.1

/-- Accumulating a payload never changes the settled flag. -/
@[simp] theorem accumVideoPacket_settled (s : VideoState) (p : List Nat) :
    (accumVideoPacket s p).settled = s.settled := by
  unfold accumVideoPacket
  split <;> dsimp only <;> split <;> rfl

/-- Accumulating a payload never changes the recorded result. -/
@[simp] theorem accumVideoPacket_result (s : VideoState) (p : List Nat) :
    (accumVideoPacket s p).result = s.result := by
  unfold accumVideoPacket
  split <;> dsimp only <;> split <;> rfl

/-- Accumulating a payload never decreases the received byte count. -/
theorem accumVideoPacket_received_ge (s : VideoState) (p : List Nat) :
    s.receivedCompressedBytes ≤ (accumVideoPacket s p).receivedCompressedBytes := by
  unfold accumVideoPacket
  split <;> dsimp only <;> split <;> simp

/-- One packet never decreases the received byte count. -/
theorem handleVideoPacket_received_mono (s : VideoState) (p : List Nat) :
    s.receivedCompressedBytes ≤ (handleVideoPacket s p).receivedCompressedBytes := by
  unfold handleVideoPacket
  split
  · exact Nat.le_refl _
  · dsimp only
    split
    · simpa using accumVideoPacket_received_ge s p
    · exact accumVideoPacket_received_ge s p

/-- A packet sequence never decreases the received byte count. -/
theorem runVideoPackets_received_ge (ps : List (List Nat)) :
    ∀ s : VideoState,
      s.receivedCompressedBytes ≤ (runVideoPackets s ps).receivedCompressedBytes := by
  induction ps with
  | nil => exact fun s => Nat.le_refl _
  | cons p ps ih =>
    intro s
    exact Nat.le_trans (handleVideoPacket_received_mono s p) (ih (handleVideoPacket s p))

/-- C6: across any sequence of video payloads the accumulated compressed
byte total is monotonically non-decreasing; once the state is settled no
further packet changes the recorded frame (so at most one frame is ever
produced); an unsettled state becomes settled by a packet exactly when,
after accumulating a payload of at least 4 bytes, the declared compressed
size is positive, the total has reached it, and a header is stored; and
the recorded frame then carries the state's width, height, header, and the
entire accumulated chunk list. -/
theorem c6_frame_sealing :
    (∀ (s : VideoState) (payloads extra : List (List Nat)),
      (runVideoPackets s payloads).receivedCompressedBytes ≤
        (runVideoPackets s (payloads ++ extra)).receivedCompressedBytes) ∧
    (∀ (s : VideoState) (p : List Nat), s.settled = true →
      (handleVideoPacket s p).settled = true ∧ (handleVideoPacket s p).result = s.result) ∧
    (∀ (s : VideoState) (p : List Nat), s.settled = false →
      ((handleVideoPacket s p).settled = true ↔
        4 ≤ p.length ∧ 0 < (handleVideoPacket s p).compressSize ∧
          (handleVideoPacket s p).compressSize ≤
            (handleVideoPacket s p).receivedCompressedBytes ∧
          (handleVideoPacket s p).headerBytes.isSome = true)) ∧
    (∀ (s : VideoState) (p : List Nat), s.settled = false →
      (handleVideoPacket s p).settled = true →
      (handleVideoPacket s p).result = some
        ⟨(handleVideoPacket s p).frameWidth, (handleVideoPacket s p).frameHeight,
          ((handleVideoPacket s p).headerBytes).getD [],
          (handleVideoPacket s p).compressedChunks,
          (handleVideoPacket s p).compressSize⟩) := by
  refine ⟨?_, ?_, ?_, ?_⟩
  · intro s ps extra
    unfold runVideoPackets
    rw [List.foldl_append]
    exact runVideoPackets_received_ge extra _
  · intro s p hs
    unfold handleVideoPacket
    split
    · exact ⟨hs, rfl⟩
    · dsimp only
      have hset : (accumVideoPacket s p).settled = true := by
        rw [accumVideoPacket_settled]; exact hs
      have hres : (accumVideoPacket s p).result = s.result := accumVideoPacket_result s p
      split
      · unfold sealFrame
        rw [if_pos hset]
        exact ⟨hset, hres⟩
      · exact ⟨hset, hres⟩
  · intro s p hs
    unfold handleVideoPacket
    by_cases h4 : p.length < 4
    · rw [if_pos h4]
      constructor
      · intro hfalse
        rw [hs] at hfalse
        exact absurd hfalse (by simp)
      · rintro ⟨h4', -⟩
        omega
    · rw [if_neg h4]
      dsimp only
      have hset : (accumVideoPacket s p).settled = false := by
        rw [accumVideoPacket_settled]; exact hs
      split
      · rename_i hcond
        have hsealed : (sealFrame (accumVideoPacket s p)).settled = true := by
          unfold sealFrame
          rw [if_neg (by simp [hs])]
        constructor
        · intro _
          exact ⟨by omega, by simpa using hcond.1, by simpa using hcond.2.1,
            by simpa using hcond.2.2⟩
        · intro _
          exact hsealed
      · rename_i hcond
        constructor
        · intro hfalse
          rw [hset] at hfalse
          exact absurd hfalse (by simp)
        · rintro ⟨hp4, hx, hy, hz⟩
          exact absurd ⟨hx, hy, hz⟩ hcond
  · intro s p hs hsettled
    unfold handleVideoPacket at hsettled ⊢
    by_cases h4 : p.length < 4
    · rw [if_pos h4] at hsettled ⊢
      rw [hs] at hsettled
      exact absurd hsettled (by simp)
    · rw [if_neg h4] at hsettled ⊢
      dsimp only at hsettled ⊢
      have hset : (accumVideoPacket s p).settled = false := by
        rw [accumVideoPacket_settled]; exact hs
      by_cases hcond : 0 < (accumVideoPacket s p).compressSize ∧
          (accumVideoPacket s p).compressSize ≤
            (accumVideoPacket s p).receivedCompressedBytes ∧
          (accumVideoPacket s p).headerBytes.isSome = true
      · rw [if_pos hcond]
        simp [sealFrame, hs]
      · rw [if_neg hcond] at hsettled
        rw [hset] at hsettled
        exact absurd hsettled (by simp)

/-- C6 witness: a settled state absorbs a further packet without changing
the recorded frame, applied at a concrete settled state and payload. -/
theorem c6_frame_sealing_witness :
    (handleVideoPacket ⟨false, 86, 4, 4, 2, some [3], [[9, 9]], 2, true,
        some ⟨4, 4, [3], [[9, 9]], 2⟩⟩ [0, 0, 7, 7]).settled = true ∧
    (handleVideoPacket ⟨false, 86, 4, 4, 2, some [3], [[9, 9]], 2, true,
        some ⟨4, 4, [3], [[9, 9]], 2⟩⟩ [0, 0, 7, 7]).result =
      some ⟨4, 4, [3], [[9, 9]], 2⟩ :=
  (c6_frame_sealing).2.1
    ⟨false, 86, 4, 4, 2, some [3], [[9, 9]], 2, true, some ⟨4, 4, [3], [[9, 9]], 2⟩⟩
    [0, 0, 7, 7] rfl

/-- A buffer keeps its length under `copyWithin`. -/
theorem copyWithin_len (b : ByteBuf) (t s e : Nat) : (b.copyWithin t s e).len = b.len := rfl

/-- A buffer keeps its length under `writeRowFrom`. -/
theorem writeRowFrom_len (buf snap : ByteBuf) (t s c : Nat) :
    (writeRowFrom buf snap t s c).len = buf.len := rfl

/-- In-bounds `copyWithin` reads the old buffer at the shifted source
index inside the target window and is the identity elsewhere. -/
theorem copyWithin_val (b : ByteBuf) (target start count : Nat)
    (hs : start + count ≤ b.len) (ht : target + count ≤ b.len) (i : Nat) :
    (b.copyWithin target start (start + count)).val i =
      if target ≤ i ∧ i < target + count then b.val (start + (i - target)) else b.val i := by
  unfold ByteBuf.copyWithin
  dsimp only
  rw [show min target b.len = target by omega, show min start b.len = start by omega,
    show min (start + count) b.len = start + count by omega,
    show min (start + count - start) (b.len - target) = count by omega]

/-- A row that stays inside the framebuffer width and below the height
occupies bytes below the buffer size. -/
theorem rowBound (r x w W H : Nat) (hxw : x + w ≤ W) (hr : r < H) :
    (r * W + x) * 4 + w * 4 ≤ W * H * 4 := by
  have h2 : r * W + W = (r + 1) * W := by ring
  have h3 : (r + 1) * W ≤ H * W := Nat.mul_le_mul_right W (by omega)
  have h4 : r * W + x + w ≤ H * W := by omega
  have h5 : (r * W + x + w) * 4 ≤ H * W * 4 := Nat.mul_le_mul_right 4 h4
  calc (r * W + x) * 4 + w * 4 = (r * W + x + w) * 4 := by ring
    _ ≤ H * W * 4 := h5
    _ = W * H * 4 := by ring

/-- Byte windows of in-width rows are ordered when their rows are. -/
theorem row_sep (r1 x1 r2 x2 w W : Nat) (h1 : x1 + w ≤ W) (hr : r1 < r2) :
    (r1 * W + x1) * 4 + w * 4 ≤ (r2 * W + x2) * 4 := by
  have h2 : r1 * W + W = (r1 + 1) * W := by ring
  have h3 : (r1 + 1) * W ≤ r2 * W := Nat.mul_le_mul_right W (by omega)
  have h4 : r1 * W + x1 + w ≤ r2 * W + x2 := by omega
  calc (r1 * W + x1) * 4 + w * 4 = (r1 * W + x1 + w) * 4 := by ring
    _ ≤ (r2 * W + x2) * 4 := Nat.mul_le_mul_right 4 h4

/-- Byte windows in the same row are ordered when the columns are. -/
theorem col_sep (r x1 x2 w W : Nat) (h : x1 + w ≤ x2) :
    (r * W + x1) * 4 + w * 4 ≤ (r * W + x2) * 4 := by
  have h4 : r * W + x1 + w ≤ r * W + x2 := by omega
  calc (r * W + x1) * 4 + w * 4 = (r * W + x1 + w) * 4 := by ring
    _ ≤ (r * W + x2) * 4 := Nat.mul_le_mul_right 4 h4

/-- Under the amended direction condition, the destination window of an
earlier row never meets the source window of a later row. -/
theorem copyRect_intervals_sep (rect : FbRect) (fbWidth n y : Nat)
    (hx : rect.x + rect.width ≤ fbWidth) (hsx : rect.srcX + rect.width ≤ fbWidth)
    (hdir : rect.y ≤ rect.srcY ∨ rect.y + rect.height ≤ rect.srcY ∨
      rect.srcY + rect.height ≤ rect.y ∨ rect.x + rect.width ≤ rect.srcX ∨
      rect.srcX + rect.width ≤ rect.x)
    (hny : n < y) (hnh : n < rect.height) (hyh : y < rect.height) :
    ((rect.y + n) * fbWidth + rect.x) * 4 + rect.width * 4 ≤
        ((rect.srcY + y) * fbWidth + rect.srcX) * 4 ∨
      ((rect.srcY + y) * fbWidth + rect.srcX) * 4 + rect.width * 4 ≤
        ((rect.y + n) * fbWidth + rect.x) * 4 := by
  rcases hdir with hA | hB | hC | hD | hE
  · exact Or.inl (row_sep _ _ _ _ _ _ hx (by omega))
  · exact Or.inl (row_sep _ _ _ _ _ _ hx (by omega))
  · exact Or.inr (row_sep _ _ _ _ _ _ hsx (by omega))
  · rcases Nat.lt_trichotomy (rect.y + n) (rect.srcY + y) with hlt | heq | hgt
    · exact Or.inl (row_sep _ _ _ _ _ _ hx hlt)
    · rw [heq]
      exact Or.inl (col_sep _ _ _ _ _ hD)
    · exact Or.inr (row_sep _ _ _ _ _ _ hsx hgt)
  · rcases Nat.lt_trichotomy (rect.y + n) (rect.srcY + y) with hlt | heq | hgt
    · exact Or.inl (row_sep _ _ _ _ _ _ hx hlt)
    · rw [heq]
      exact Or.inr (col_sep _ _ _ _ _ hE)
    · exact Or.inr (row_sep _ _ _ _ _ _ hsx hgt)

/-- Unfolding equation for the CopyRect row step. -/
theorem copyRectStep_eq (rect : FbRect) (fbWidth : Nat) (buf : ByteBuf) (y : Nat) :
    copyRectStep rect fbWidth buf y =
      buf.copyWithin (((rect.y + y) * fbWidth + rect.x) * 4)
        (((rect.srcY + y) * fbWidth + rect.srcX) * 4)
        (((rect.srcY + y) * fbWidth + rect.srcX) * 4 + rect.width * 4) := rfl

/-- Unfolding equation for the snapshot row step, applied at an index. -/
theorem snapshotStep_val (rect : FbRect) (framebuffer : ByteBuf) (fbWidth : Nat)
    (buf : ByteBuf) (y i : Nat) :
    (snapshotStep rect framebuffer fbWidth buf y).val i =
      if ((rect.y + y) * fbWidth + rect.x) * 4 ≤ i ∧
          i < ((rect.y + y) * fbWidth + rect.x) * 4 + rect.width * 4 ∧ i < buf.len then
        framebuffer.val ((((rect.srcY + y) * fbWidth + rect.srcX) * 4 +
          (i - ((rect.y + y) * fbWidth + rect.x) * 4)))
      else buf.val i := rfl

/-- C1 counterexample: the claim fails for a downward overlapping copy. In
a 1-pixel-wide, 3-row framebuffer holding rows 1, 2, 3 (as repeated
bytes), a CopyRect with source (0,0), destination (0,1), width 1, height 2
overlaps itself one row down: the snapshot copy puts source row 1 (value
2) into row 2, but `decodeCopyRect` has already overwritten row 1 when it
reads it, leaving value 1 — the data is corrupted mid-copy. -/
theorem c1_copyrect_counterexample :
    (decodeCopyRect ⟨0, 1, 1, 2, [0, 0, 0, 0]⟩
        (ByteBuf.ofList [1, 1, 1, 1, 2, 2, 2, 2, 3, 3, 3, 3]) 1).val 8 = 1 ∧
    (copyRectSnapshot ⟨0, 1, 1, 2, [0, 0, 0, 0]⟩
        (ByteBuf.ofList [1, 1, 1, 1, 2, 2, 2, 2, 3, 3, 3, 3]) 1).val 8 = 2 ∧
    (decodeCopyRect ⟨0, 1, 1, 2, [0, 0, 0, 0]⟩
          (ByteBuf.ofList [1, 1, 1, 1, 2, 2, 2, 2, 3, 3, 3, 3]) 1).val 8 ≠
      (copyRectSnapshot ⟨0, 1, 1, 2, [0, 0, 0, 0]⟩
          (ByteBuf.ofList [1, 1, 1, 1, 2, 2, 2, 2, 3, 3, 3, 3]) 1).val 8 := by
  decide

/-- C1 amended: `decodeCopyRect` reads the big-endian 16-bit source pair
from the 4-byte payload and copies `rect.height` rows of `rect.width * 4`
bytes from the source to the destination offsets; for in-bounds rectangles
the result equals the copy from an unmodified snapshot whenever the
destination's first row is not strictly below the source's first row, or
the two regions are disjoint (row-disjoint or column-disjoint) — a
destination strictly below an overlapping source is corrupted, as the
counterexample shows. -/
theorem c1_copyrect_snapshot (rect : FbRect) (fb : ByteBuf) (fbWidth fbHeight : Nat)
    (hlen : fb.len = fbWidth * fbHeight * 4)
    (hx : rect.x + rect.width ≤ fbWidth)
    (hsx : rect.srcX + rect.width ≤ fbWidth)
    (hy : rect.y + rect.height ≤ fbHeight)
    (hsy : rect.srcY + rect.height ≤ fbHeight)
    (hdir : rect.y ≤ rect.srcY ∨ rect.y + rect.height ≤ rect.srcY ∨
      rect.srcY + rect.height ≤ rect.y ∨ rect.x + rect.width ≤ rect.srcX ∨
      rect.srcX + rect.width ≤ rect.x) :
    (decodeCopyRect rect fb fbWidth).len = fb.len ∧
    ∀ i, (decodeCopyRect rect fb fbWidth).val i = (copyRectSnapshot rect fb fbWidth).val i := by
  have eB : decodeCopyRect rect fb fbWidth =
      (List.range rect.height).foldl (copyRectStep rect fbWidth) fb := rfl
  have eS : copyRectSnapshot rect fb fbWidth =
      (List.range rect.height).foldl (snapshotStep rect fb fbWidth) fb := rfl
  have hbS : ∀ y, y < rect.height →
      ((rect.srcY + y) * fbWidth + rect.srcX) * 4 + rect.width * 4 ≤ fb.len := by
    intro y hyh
    rw [hlen]
    exact rowBound _ _ _ _ _ hsx (by omega)
  have hbD : ∀ y, y < rect.height →
      ((rect.y + y) * fbWidth + rect.x) * 4 + rect.width * 4 ≤ fb.len := by
    intro y hyh
    rw [hlen]
    exact rowBound _ _ _ _ _ hx (by omega)
  have main : ∀ n, n ≤ rect.height →
      ((List.range n).foldl (copyRectStep rect fbWidth) fb).len = fb.len ∧
      ((List.range n).foldl (snapshotStep rect fb fbWidth) fb).len = fb.len ∧
      (∀ y i, n ≤ y → y < rect.height →
        ((rect.srcY + y) * fbWidth + rect.srcX) * 4 ≤ i →
        i < ((rect.srcY + y) * fbWidth + rect.srcX) * 4 + rect.width * 4 →
        ((List.range n).foldl (copyRectStep rect fbWidth) fb).val i = fb.val i) ∧
      (∀ i, ((List.range n).foldl (copyRectStep rect fbWidth) fb).val i =
        ((List.range n).foldl (snapshotStep rect fb fbWidth) fb).val i) := by
    intro n
    induction n with
    | zero => exact fun _ => ⟨rfl, rfl, fun y i _ _ _ _ => rfl, fun i => rfl⟩
    | succ n ih =>
      intro hn1
      obtain ⟨ihLB, ihLS, ihQ, ihP⟩ := ih (by omega)
      have hnh : n < rect.height := by omega
      have hsn := hbS n hnh
      have hdn := hbD n hnh
      simp only [List.range_succ, List.foldl_append, List.foldl_cons, List.foldl_nil]
      refine ⟨ihLB, ihLS, ?_, ?_⟩
      · intro y i hy1 hy2 hi1 hi2
        rw [copyRectStep_eq,
          copyWithin_val _ _ _ _ (by rw [ihLB]; exact hsn) (by rw [ihLB]; omega) i]
        rw [if_neg ?_]
        · exact ihQ y i (by omega) hy2 hi1 hi2
        · rcases copyRect_intervals_sep rect fbWidth n y hx hsx hdir (by omega) hnh hy2 with
            hsep | hsep
          · rintro ⟨hc1, hc2⟩
            omega
          · rintro ⟨hc1, hc2⟩
            omega
      · intro i
        rw [copyRectStep_eq,
          copyWithin_val _ _ _ _ (by rw [ihLB]; exact hsn) (by rw [ihLB]; omega) i,
          snapshotStep_val]
        by_cases hc : ((rect.y + n) * fbWidth + rect.x) * 4 ≤ i ∧
            i < ((rect.y + n) * fbWidth + rect.x) * 4 + rect.width * 4
        · rw [if_pos hc]
          have hiS : i < ((List.range n).foldl (snapshotStep rect fb fbWidth) fb).len := by
            rw [ihLS]
            omega
          rw [if_pos ⟨hc.1, hc.2, hiS⟩]
          exact ihQ n _ (Nat.le_refl n) hnh (by omega) (by omega)
        · rw [if_neg hc, if_neg ?_]
          · exact ihP i
          · rintro ⟨h1, h2, -⟩
            exact hc ⟨h1, h2⟩
  rw [eB, eS]
  obtain ⟨hl, -, -, hp⟩ := main rect.height (Nat.le_refl _)
  exact ⟨hl, hp⟩

/-- C1 witness: an upward overlapping copy (destination one row above the
source) in a 1-pixel-wide, 3-row framebuffer matches the snapshot copy at
every index. -/
theorem c1_copyrect_snapshot_witness :
    (decodeCopyRect ⟨0, 0, 1, 2, [0, 0, 0, 1]⟩
        (ByteBuf.ofList [1, 1, 1, 1, 2, 2, 2, 2, 3, 3, 3, 3]) 1).val 0 =
      (copyRectSnapshot ⟨0, 0, 1, 2, [0, 0, 0, 1]⟩
        (ByteBuf.ofList [1, 1, 1, 1, 2, 2, 2, 2, 3, 3, 3, 3]) 1).val 0 :=
  (c1_copyrect_snapshot ⟨0, 0, 1, 2, [0, 0, 0, 1]⟩
    (ByteBuf.ofList [1, 1, 1, 1, 2, 2, 2, 2, 3, 3, 3, 3]) 1 3
    (by decide) (by decide) (by decide) (by decide) (by decide)
    (Or.inl (by decide))).2 0

end OvhIkvm
